import Mathlib

/-!
Verification development for the `click_the_moving_dot` training pipeline.

Shallow embedding of the two Python scripts:
  * `create_dummy_onnx_model.py` — declared ONNX interface of the dummy graph;
  * `train_demo_pytorch_lstm.py` — sequence builder, scalers, LSTM model,
    training loop, and ONNX export interface.

Machine floats are modelled as real numbers; NumPy's global random state is
modelled as explicit oracle streams (`Rng`).  The autodiff substrate
(`loss.backward()`) is modelled as an abstract gradient oracle, as the
gradient computation lives in the PyTorch library, not in this repository.
-/

noncomputable section

/-- One event row of the input dataset (schema of `data/game_dataset.parquet`:
`sessionUid` is carried by the grouping, the remaining columns are below).
Timestamps carry a decidable order (they are only ever compared); positions
and `maxSpeed` are modelled as reals. -/
structure Event where
  timestamp : ℚ
  dotX : ℝ
  dotY : ℝ
  mouseX : ℝ
  mouseY : ℝ
  maxSpeed : ℝ

instance : Inhabited Event := ⟨⟨0, 0, 0, 0, 0, 0⟩⟩

/-- Oracle streams standing for NumPy's seeded global random state
(`np.random.seed(42)`): `unif n` is the n-th uniform draw on `[0,1)`
(`np.random.uniform(0, 2π) = 2π·unif`), `gauss n` the n-th standard normal
draw (`np.random.normal(0, σ) = σ·gauss`). -/
structure Rng where
  unif : ℕ → ℝ
  gauss : ℕ → ℝ

/-- Comparison used by `session_data.sort_values("timestamp")`. -/
def tsLE (a b : Event) : Prop := a.timestamp ≤ b.timestamp

instance : DecidableRel tsLE := fun a b => inferInstanceAs (Decidable (a.timestamp ≤ b.timestamp))

instance : IsTotal Event tsLE := ⟨fun a b => le_total a.timestamp b.timestamp⟩

instance : IsTrans Event tsLE := ⟨fun _ _ _ hab hbc => le_trans hab hbc⟩

/-- `session_data.sort_values("timestamp")`: sort the session's events by
timestamp (modelled with a stable insertion sort). -/
def sortByTs (es : List Event) : List Event := List.insertionSort tsLE es

/-- Feature extraction of one row:
`features = session_data[["dotX", "dotY", "mouseX", "mouseY"]].values`. -/
def featOf (e : Event) : List ℝ := [e.dotX, e.dotY, e.mouseX, e.mouseY]

/-- `dx = current_dot_x - current_mouse_x` where the current state is the
feature row at index `i` (`features[i,0]` is `dotX`, `features[i,2]` is `mouseX`). -/
def deltaX (f : List ℝ) : ℝ := f.getD 0 0 - f.getD 2 0

/-- `dy = current_dot_y - current_mouse_y` (`features[i,1]` minus `features[i,3]`). -/
def deltaY (f : List ℝ) : ℝ := f.getD 1 0 - f.getD 3 0

/-- `distance = np.sqrt(dx**2 + dy**2)`. -/
def distanceOf (f : List ℝ) : ℝ := Real.sqrt (deltaX f ^ 2 + deltaY f ^ 2)

open scoped Classical in
/-- Pre-noise escape-velocity target of `load_and_prepare_data` (lines
165–175): directed away from the pointer and scaled by `max_speed * 100`
when the distance is positive, otherwise a uniformly random direction
(`angle = np.random.uniform(0, 2*np.pi)`, here `2π · unif k`). -/
def preNoiseTarget (rng : Rng) (k : ℕ) (s : ℝ) (f : List ℝ) : ℝ × ℝ :=
  if 0 < distanceOf f then
    ((deltaX f / distanceOf f) * s * 100, (deltaY f / distanceOf f) * s * 100)
  else
    (Real.cos (2 * Real.pi * rng.unif k) * s * 100,
     Real.sin (2 * Real.pi * rng.unif k) * s * 100)

/-- Full escape-velocity target: the pre-noise target plus independent
zero-mean Gaussian noise of standard deviation `0.3 * max_speed * 100`
on each component (`escape_vx += np.random.normal(0, noise_factor * max_speed * 100)`).
The k-th emitted sample consumes the standard normal draws `2k` and `2k+1`. -/
def mkTarget (rng : Rng) (k : ℕ) (s : ℝ) (f : List ℝ) : ℝ × ℝ :=
  ((preNoiseTarget rng k s f).1 + 0.3 * s * 100 * rng.gauss (2 * k),
   (preNoiseTarget rng k s f).2 + 0.3 * s * 100 * rng.gauss (2 * k + 1))

/-- One emitted training example: the Python loop appends to the three
aligned lists `sequences`, `targets`, `configs` in lockstep, which is
modelled as one list of records. -/
structure Sample where
  window : List (List ℝ)
  target : ℝ × ℝ
  config : ℝ

instance : Inhabited Sample := ⟨⟨[], (0, 0), 0⟩⟩

/-- Samples emitted for one kept session (`load_and_prepare_data`, lines
137–184): sort by timestamp, read `max_speed` from the first sorted row,
then for `i` in `range(sequence_length, len(features))` emit the window
`features[i - sequence_length : i]` (here `i = L + j`) and the target from
the state at index `i`.  `k₀` is the global index of the session's first
emitted sample (it addresses the random draws). -/
def sessionSamples (rng : Rng) (L k₀ : ℕ) (es : List Event) : List Sample :=
  let sorted := sortByTs es
  let feats := sorted.map featOf
  let s := (sorted.headD default).maxSpeed
  (List.range (feats.length - L)).map fun j =>
    { window := (feats.drop j).take L
      target := mkTarget rng (k₀ + j) s (feats.getD (L + j) [])
      config := s }

/-- `load_and_prepare_data` over the grouped sessions: a session with fewer
than `min_session_length = M` events is skipped (`continue`), otherwise it
contributes its `sessionSamples`.  `k₀` threads the global sample index. -/
def loadAndPrepareData (rng : Rng) (L M : ℕ) : ℕ → List (List Event) → List Sample
  | _, [] => []
  | k₀, es :: rest =>
    if es.length < M then loadAndPrepareData rng L M k₀ rest
    else sessionSamples rng L k₀ es ++ loadAndPrepareData rng L M (k₀ + (es.length - L)) rest

/-- The three aligned arrays returned by `load_and_prepare_data`:
`np.array(sequences), np.array(targets), np.array(configs)`. -/
structure BuilderOutput where
  sequences : List (List (List ℝ))
  targets : List (List ℝ)
  configs : List (List ℝ)

/-- Projections of the emitted samples into the three returned arrays
(`targets.append([escape_vx, escape_vy])`, `configs.append([max_speed])`). -/
def builderOutput (rng : Rng) (L M : ℕ) (sessions : List (List Event)) : BuilderOutput :=
  let samples := loadAndPrepareData rng L M 0 sessions
  { sequences := samples.map Sample.window
    targets := samples.map fun smp => [smp.target.1, smp.target.2]
    configs := samples.map fun smp => [smp.config] }

/-- Number of samples the builder should emit: the kept sessions (length at
least `M`) each contribute `length − L` samples. -/
def expectedCount (L M : ℕ) (sessions : List (List Event)) : ℕ :=
  (sessions.filter fun es => decide (M ≤ es.length)).foldr (fun es acc => (es.length - L) + acc) 0

/-! ### Declared ONNX graph interfaces (claim C1)

A shape dimension is `none` when it is declared dynamic and `some d` when it
is static of extent `d`; the per-timestep feature count of the `history`
input is the last dimension of its shape. -/

/-- The input/output declaration of a serialized graph artifact. -/
structure TensorInterface where
  inputNames : List String
  outputNames : List String
  historyShape : List (Option ℕ)
  configShape : List (Option ℕ)
  outputShapes : List (List (Option ℕ))
  opsetVersion : ℕ
deriving DecidableEq

/-- Per-timestep feature count declared for the `history` input. -/
def TensorInterface.featureCount (t : TensorInterface) : Option ℕ := t.historyShape.getLastD none

/-- Declared interface of the dummy graph built by `create_dummy_model`:
`history : FLOAT [None, 6]`, `config : FLOAT [1]`, outputs
`targetVx : FLOAT [1]` and `targetVy : FLOAT [1]`, opset 14. -/
def createDummyModel : TensorInterface :=
  { inputNames := ["history", "config"]
    outputNames := ["targetVx", "targetVy"]
    historyShape := [none, some 6]
    configShape := [some 1]
    outputShapes := [[some 1], [some 1]]
    opsetVersion := 14 }

/-- Declared interface produced by `export_to_onnx`: the traced example
inputs are `torch.randn(1, sequence_length, 4)` and `torch.randn(1, 1)`,
with only dimension 1 of `history` declared dynamic (`{1: "seq_len"}`), and
the traced outputs `output[:, 0:1]`, `output[:, 1:2]` have shape `[1, 1]`. -/
def exportToOnnx (_sequenceLength : ℕ) : TensorInterface :=
  { inputNames := ["history", "config"]
    outputNames := ["targetVx", "targetVy"]
    historyShape := [some 1, none, some 4]
    configShape := [some 1, some 1]
    outputShapes := [[some 1, some 1], [some 1, some 1]]
    opsetVersion := 14 }

/-- The compatibility notion asserted by the specification for the two
artifacts: same named inputs and outputs, same per-timestep feature count,
and the same input shapes. -/
def interfaceCompatible (a b : TensorInterface) : Prop :=
  a.inputNames = b.inputNames ∧ a.outputNames = b.outputNames ∧
  a.featureCount = b.featureCount ∧ a.historyShape = b.historyShape ∧
  a.configShape = b.configShape

instance (a b : TensorInterface) : Decidable (interfaceCompatible a b) := by
  unfold interfaceCompatible; infer_instance

/-! ### StandardScaler and DotBehaviorDataset (claims C5 and C10)

`sklearn.preprocessing.StandardScaler`: `fit` stores the per-column mean and
variance; `transform` computes `(x - mean) / scale` where
`scale = sqrt(var)` with exact zeros replaced by 1
(`_handle_zeros_in_scale`); `inverse_transform` computes `x * scale + mean`. -/

/-- Fitted state of a `StandardScaler`: per-feature mean and variance. -/
structure StandardScaler where
  mean : List ℝ
  var : List ℝ

/-- Mean of one data column (NumPy convention: an empty column has mean
`0/0 = 0` under Lean's division). -/
def colMean (xs : List ℝ) : ℝ := xs.sum / xs.length

/-- Population variance of one data column, as computed by
`StandardScaler.fit`. -/
def colVar (xs : List ℝ) : ℝ := ((xs.map fun x => (x - colMean xs) ^ 2).sum) / xs.length

/-- `StandardScaler().fit(rows)` for rows of width `F`: column `j` collects
entry `j` of every row. -/
def StandardScaler.fitDim (F : ℕ) (rows : List (List ℝ)) : StandardScaler :=
  { mean := (List.range F).map fun j => colMean (rows.map fun r => r.getD j 0)
    var := (List.range F).map fun j => colVar (rows.map fun r => r.getD j 0) }

/-- `StandardScaler().fit(rows)`: the feature count is the row width. -/
def StandardScaler.fit (rows : List (List ℝ)) : StandardScaler :=
  StandardScaler.fitDim (rows.headD []).length rows

open scoped Classical in
/-- The stored scale of one feature: `sqrt(var)` with zeros replaced by 1
(`scale_ = _handle_zeros_in_scale(np.sqrt(var_))`). -/
def scaleOf (v : ℝ) : ℝ := if Real.sqrt v = 0 then 1 else Real.sqrt v

/-- Elementwise `(x - mean) / scale` over one row. -/
def transformRow : List ℝ → List ℝ → List ℝ → List ℝ
  | m :: ms, v :: vs, x :: xs => (x - m) / scaleOf v :: transformRow ms vs xs
  | _, _, _ => []

/-- Elementwise `x * scale + mean` over one row. -/
def invRow : List ℝ → List ℝ → List ℝ → List ℝ
  | m :: ms, v :: vs, x :: xs => (x * scaleOf v + m) :: invRow ms vs xs
  | _, _, _ => []

/-- `scaler.transform(rows)`. -/
def StandardScaler.transform (sc : StandardScaler) (rows : List (List ℝ)) : List (List ℝ) :=
  rows.map (transformRow sc.mean sc.var)

/-- `scaler.inverse_transform(rows)`. -/
def StandardScaler.inverseTransform (sc : StandardScaler) (rows : List (List ℝ)) : List (List ℝ) :=
  rows.map (invRow sc.mean sc.var)

/-- `_scale_sequences`: reshape `(n, L, F)` to `(n*L, F)`, transform, and
reshape back — elementwise this transforms every feature row of every
window in place. -/
def scaleSequences (sc : StandardScaler) (sequences : List (List (List ℝ))) :
    List (List (List ℝ)) :=
  sequences.map fun w => sc.transform w

/-- The state built by `DotBehaviorDataset.__init__`. -/
structure Dataset where
  scalerX : StandardScaler
  scalerY : StandardScaler
  sequencesScaled : List (List (List ℝ))
  targetsScaled : List (List ℝ)

/-- `DotBehaviorDataset.__init__(sequences, targets, scaler_X, scaler_y,
fit_scalers)`: a `None` scaler argument creates a fresh scaler, which is
fitted only when `fit_scalers` is set (the feature scaler on the windows
reshaped to `(n_samples * seq_len, n_features)`, i.e. on the joined feature
rows); a supplied scaler is used as-is; both data arrays are then scaled.
A fresh scaler that is never fitted is the unfitted `⟨[], []⟩` (sklearn
would raise on its `transform`; the pipeline never reaches that case). -/
def datasetInit (sequences : List (List (List ℝ))) (targets : List (List ℝ))
    (scalerX? scalerY? : Option StandardScaler) (fitScalers : Bool) : Dataset :=
  let scX := match scalerX? with
    | some s => s
    | none => if fitScalers then StandardScaler.fit sequences.flatten else ⟨[], []⟩
  let scY := match scalerY? with
    | some s => s
    | none => if fitScalers then StandardScaler.fit targets else ⟨[], []⟩
  { scalerX := scX
    scalerY := scY
    sequencesScaled := scaleSequences scX sequences
    targetsScaled := scY.transform targets }

/-! ### DotBehaviorLSTM (claim C7)

The model of `train_demo_pytorch_lstm.py` lines 75–110: a single-layer LSTM
(`nn.LSTM(input_size, hidden_size, batch_first=True)`), a dropout unit, and
one linear head `nn.Linear(hidden_size + 1, 2)`.  The per-gate arithmetic
follows the documented `nn.LSTM` cell equations.  Dropout's Bernoulli masks
are an explicit oracle (they come from Torch's seeded global RNG). -/

/-- `1 / (1 + exp(-x))`, the LSTM gate nonlinearity. -/
def sigmoid (x : ℝ) : ℝ := 1 / (1 + Real.exp (-x))

/-- Dot product of two dense vectors. -/
def dotv {n : ℕ} (a b : Fin n → ℝ) : ℝ := Finset.univ.sum fun i => a i * b i

/-- Weights and biases of the single `nn.LSTM` layer, one row-set per gate
(input `i`, forget `f`, cell `g`, output `o`; `w…` input-hidden, `u…`
hidden-hidden, `b…`/`c…` the respective biases). -/
structure LSTMParams (I H : ℕ) where
  wi : Fin H → Fin I → ℝ
  wf : Fin H → Fin I → ℝ
  wg : Fin H → Fin I → ℝ
  wo : Fin H → Fin I → ℝ
  ui : Fin H → Fin H → ℝ
  uf : Fin H → Fin H → ℝ
  ug : Fin H → Fin H → ℝ
  uo : Fin H → Fin H → ℝ
  bi : Fin H → ℝ
  bf : Fin H → ℝ
  bg : Fin H → ℝ
  bo : Fin H → ℝ
  ci : Fin H → ℝ
  cf : Fin H → ℝ
  cg : Fin H → ℝ
  co : Fin H → ℝ

/-- One LSTM cell step on hidden/cell state `(h, c)` with input `x`. -/
def lstmCell {I H : ℕ} (p : LSTMParams I H) (x : Fin I → ℝ)
    (hc : (Fin H → ℝ) × (Fin H → ℝ)) : (Fin H → ℝ) × (Fin H → ℝ) :=
  let h := hc.1
  let c := hc.2
  let ig := fun j => sigmoid (dotv (p.wi j) x + p.bi j + dotv (p.ui j) h + p.ci j)
  let fg := fun j => sigmoid (dotv (p.wf j) x + p.bf j + dotv (p.uf j) h + p.cf j)
  let gg := fun j => Real.tanh (dotv (p.wg j) x + p.bg j + dotv (p.ug j) h + p.cg j)
  let og := fun j => sigmoid (dotv (p.wo j) x + p.bo j + dotv (p.uo j) h + p.co j)
  let cNew := fun j => fg j * c j + ig j * gg j
  (fun j => og j * Real.tanh (cNew j), cNew)

/-- Run the LSTM over the whole input sequence from the zero initial state;
the first component of the result is the hidden output of the final time
step, i.e. `lstm_out[:, -1, :]`. -/
def lstmStates {I H : ℕ} (p : LSTMParams I H) (xs : List (Fin I → ℝ)) :
    (Fin H → ℝ) × (Fin H → ℝ) :=
  xs.foldl (fun hc x => lstmCell p x hc) (fun _ => 0, fun _ => 0)

/-- All parameters of `DotBehaviorLSTM`: the LSTM layer plus the linear head
`fc : Linear(hidden_size + 1, output_size = 2)`. -/
structure DotBehaviorLSTM (I H : ℕ) where
  lstm : LSTMParams I H
  fcw : Fin 2 → Fin (H + 1) → ℝ
  fcb : Fin 2 → ℝ

/-- `nn.Dropout(p)`: in training mode each kept activation is rescaled by
`1/(1-p)` and each masked one is zeroed; in evaluation mode the layer is the
identity. -/
def dropoutUnit {H : ℕ} (training : Bool) (p : ℝ) (mask : Fin H → Bool)
    (v : Fin H → ℝ) : Fin H → ℝ :=
  if training then (fun j => if mask j then v j / (1 - p) else 0) else v

/-- `DotBehaviorLSTM.forward(history, config)` for one sample: run the LSTM,
take the last time-step's output, apply dropout (rate 0.2), concatenate the
scalar config (`torch.cat([last_output, config], dim=1)`), apply the linear
head, and split its 2-D output into `targetVx = output[:, 0:1]` and
`targetVy = output[:, 1:2]`. -/
def DotBehaviorLSTM.forward {I H : ℕ} (m : DotBehaviorLSTM I H) (training : Bool)
    (mask : Fin H → Bool) (history : List (Fin I → ℝ)) (config : ℝ) : ℝ × ℝ :=
  let lastOutput := (lstmStates m.lstm history).1
  let dropped := dropoutUnit training 0.2 mask lastOutput
  let combined : Fin (H + 1) → ℝ := Fin.snoc dropped config
  let output := fun k : Fin 2 => dotv (m.fcw k) combined + m.fcb k
  (output 0, output 1)

/-! ### Training loop (claims C4 and C6)

`train_model` (lines 191–270).  The batched forward function and the
gradient of the loss in the flattened parameter vector are supplied by the
autodiff substrate and appear as explicit function arguments (`fw`,
`gradFn`); everything the script itself orchestrates — batch iteration,
the constant config tensor, the MSE loss, gradient clipping, the Adam step
with weight decay, validation, and the plateau scheduler — is concrete. -/

/-- One batch handed out by a `DataLoader`: the scaled windows and the
scaled 2-D targets. -/
structure Batch where
  seqs : List (List (List ℝ))
  tgts : List (ℝ × ℝ)

/-- The per-batch config tensor: `torch.ones(batch_size, 1)` — a placeholder
constant, not the session's `maxSpeed`. -/
def batchConfig (batchSize : ℕ) : List ℝ := List.replicate batchSize 1

/-- `nn.MSELoss()` on the `[n, 2]` prediction/target pair: the mean of the
squared errors over all `2n` scalar entries. -/
def mseLoss (pred tgts : List (ℝ × ℝ)) : ℝ :=
  ((List.zipWith (fun p t => (p.1 - t.1) ^ 2 + (p.2 - t.2) ^ 2) pred tgts).sum) /
    (2 * pred.length)

/-- Euclidean norm of the flattened gradient vector, as computed by
`torch.nn.utils.clip_grad_norm_`. -/
def totalNorm (g : List ℝ) : ℝ := Real.sqrt ((g.map fun x => x ^ 2).sum)

open scoped Classical in
/-- `clip_grad_norm_(parameters, max_norm=1.0)`: with
`clip_coef = max_norm / (total_norm + 1e-6)`, scale the gradient by
`clip_coef` when `clip_coef < 1`, otherwise leave it unchanged. -/
def clipGrad (g : List ℝ) : List ℝ :=
  let coef := 1 / (totalNorm g + 1e-6)
  if coef < 1 then g.map fun x => x * coef else g

/-- Per-parameter state of `optim.Adam`: the step count and the two moment
estimates. -/
structure AdamState where
  t : ℕ
  m : List ℝ
  v : List ℝ

/-- One `optimizer.step()` of `Adam(lr, weight_decay=1e-5)` with the default
moments `β₁ = 0.9`, `β₂ = 0.999`, `ε = 1e-8`: weight decay adds `wd·θ` to
the gradient, the biased moments are updated, bias-corrected, and the
parameters moved. -/
def adamStep (lr wd : ℝ) (st : AdamState) (θ g : List ℝ) : AdamState × List ℝ :=
  let t := st.t + 1
  let g' := List.zipWith (fun gi θi => gi + wd * θi) g θ
  let m' := List.zipWith (fun mi gi => 0.9 * mi + 0.1 * gi) st.m g'
  let v' := List.zipWith (fun vi gi => 0.999 * vi + 0.001 * gi ^ 2) st.v g'
  let θ' := List.zipWith
    (fun θi mv => θi - lr * (mv.1 / (1 - 0.9 ^ t)) /
      (Real.sqrt (mv.2 / (1 - 0.999 ^ t)) + 1e-8))
    θ (m'.zip v')
  (⟨t, m', v'⟩, θ')

/-- State of `ReduceLROnPlateau(optimizer, patience=5, factor=0.5)` together
with the optimizer's current learning rate (`best = none` is the initial
infinite best). -/
structure SchedulerState where
  best : Option ℝ
  numBad : ℕ
  lr : ℝ

open scoped Classical in
/-- `scheduler.step(metric)` in mode `min` with the default relative
threshold `1e-4`: an improving metric becomes the new best and resets the
bad-epoch count; otherwise the count grows, and once it exceeds
`patience = 5` the learning rate is multiplied by `factor = 0.5` and the
count resets. -/
def schedStep (st : SchedulerState) (metric : ℝ) : SchedulerState :=
  if (match st.best with
      | none => True
      | some b => metric < b * (1 - 1e-4)) then
    { st with best := some metric, numBad := 0 }
  else if st.numBad + 1 > 5 then
    { st with numBad := 0, lr := st.lr * 0.5 }
  else
    { st with numBad := st.numBad + 1 }

/-- Substrate view of the network: the batched forward pass
(parameters, batch of windows, config column) ↦ predictions, and the
gradient of the batch loss in the flattened parameters. -/
structure NetOracle where
  fw : List ℝ → List (List (List ℝ)) → List ℝ → List (ℝ × ℝ)
  gradFn : List ℝ → Batch → List ℝ

/-- Accumulator of the inner batch loop of one epoch. -/
structure EpochAcc where
  params : List ℝ
  adam : AdamState
  acc : ℝ

/-- One iteration of `for sequences, targets in train_loader`: build the
all-ones config, forward, MSE loss, backpropagate (gradient oracle), clip
the global gradient norm to 1.0, and apply exactly one optimizer step. -/
def runTrainBatch (net : NetOracle) (lr : ℝ) (a : EpochAcc) (b : Batch) : EpochAcc :=
  let config := batchConfig b.seqs.length
  let pred := net.fw a.params b.seqs config
  let loss := mseLoss pred b.tgts
  let g := net.gradFn a.params b
  let gClipped := clipGrad g
  let step := adamStep lr 1e-5 a.adam a.params gClipped
  { params := step.2, adam := step.1, acc := a.acc + loss }

/-- Validation loss of one batch: a forward pass in eval mode under
`torch.no_grad()` — it touches no parameter and no optimizer state. -/
def valBatchLoss (net : NetOracle) (params : List ℝ) (b : Batch) : ℝ :=
  mseLoss (net.fw params b.seqs (batchConfig b.seqs.length)) b.tgts

/-- State threaded through the epochs of `train_model`. -/
structure TrainState where
  params : List ℝ
  adam : AdamState
  sched : SchedulerState
  trainLosses : List ℝ
  valLosses : List ℝ

/-- One epoch of `train_model`: fold the training batches, average the
training loss, run the full validation pass on the post-epoch parameters,
average it, record both, and feed the average validation loss to the
scheduler. -/
def runEpoch (net : NetOracle) (trainB valB : List Batch) (st : TrainState) : TrainState :=
  let a := trainB.foldl (runTrainBatch net st.sched.lr) ⟨st.params, st.adam, 0⟩
  let avgTrain := a.acc / trainB.length
  let avgVal := ((valB.map (valBatchLoss net a.params)).sum) / valB.length
  { params := a.params
    adam := a.adam
    sched := schedStep st.sched avgVal
    trainLosses := st.trainLosses ++ [avgTrain]
    valLosses := st.valLosses ++ [avgVal] }

/-- The epoch loop: epoch `i` draws its (shuffled) batch list from the
loader oracle `trainB i`; `k` epochs remain. -/
def trainLoop (net : NetOracle) (trainB : ℕ → List Batch) (valB : List Batch) :
    ℕ → ℕ → TrainState → TrainState
  | _, 0, st => st
  | i, Nat.succ k, st => trainLoop net trainB valB (i + 1) k (runEpoch net (trainB i) valB st)

/-- `train_model(model, train_loader, val_loader, num_epochs, learning_rate)`. -/
def trainModel (net : NetOracle) (trainB : ℕ → List Batch) (valB : List Batch)
    (numEpochs : ℕ) (st : TrainState) : TrainState :=
  trainLoop net trainB valB 0 numEpochs st

/-- Fresh optimizer/scheduler/bookkeeping state around the initial
parameters, with `Adam`'s zero moment buffers and the configured initial
learning rate. -/
def initTrainState (params : List ℝ) (lr : ℝ) : TrainState :=
  { params := params
    adam := ⟨0, params.map fun _ => 0, params.map fun _ => 0⟩
    sched := ⟨none, 0, lr⟩
    trainLosses := []
    valLosses := [] }

/-! ### The `main` pipeline (claims C4, C8, C9)

`main` (lines 304–381): check the dataset file, build the sequences, abort
on an empty training set, split 80/20, build the two datasets with the
scalers fitted on the training split only, batch, train for 30 epochs, and
export.  Everything Torch/NumPy draws from its seeded global state —
the split shuffle (`random_state=42`), the per-epoch loader shuffles, the
parameter initialization, dropout — enters as explicit oracle fields. -/

/-- Split a list into consecutive chunks of `k` items, keeping a final
partial chunk (`DataLoader(batch_size=64, drop_last=False)`). -/
def chunksOf : ℕ → List α → List (List α)
  | _, [] => []
  | 0, _ :: _ => []
  | Nat.succ k, x :: xs =>
    ((x :: xs).take (k + 1)) :: chunksOf (k + 1) ((x :: xs).drop (k + 1))
termination_by _ l => l.length
decreasing_by
  simp only [List.length_drop, List.length_cons]
  omega

/-- `train_test_split(sequences, targets, test_size=0.2, random_state=42)`:
the seeded index shuffle is the oracle `shuffleIdx`; the first
`ceil(0.2·n)` shuffled indices form the validation split and the rest the
training split; the function returns `(X_train, X_val, y_train, y_val)`. -/
def trainTestSplit [Inhabited α] [Inhabited β] (shuffleIdx : List ℕ)
    (xs : List α) (ys : List β) : List α × List α × List β × List β :=
  let nTest := (xs.length + 4) / 5
  let testIdx := shuffleIdx.take nTest
  let trainIdx := shuffleIdx.drop nTest
  (trainIdx.map fun i => xs.getD i default,
   testIdx.map fun i => xs.getD i default,
   trainIdx.map fun i => ys.getD i default,
   testIdx.map fun i => ys.getD i default)

/-- One dataset item `(sequence_scaled, target_scaled)` to one batch column. -/
def mkBatch (items : List (List (List ℝ) × List ℝ)) : Batch :=
  { seqs := items.map Prod.fst
    tgts := items.map fun it => (it.2.getD 0 0, it.2.getD 1 0) }

/-- The substrate and seeded-randomness oracles `main` consumes: the
network/gradient oracle, the seeded initial parameters
(`torch.manual_seed(42)`), the split shuffle (`random_state=42`) and the
per-epoch loader shuffles (Torch's seeded sampler). -/
structure Substrate where
  net : NetOracle
  initParams : List ℝ
  splitShuffle : List ℕ
  epochShuffle : ℕ → List ℕ

/-- Outcome of one run of `main`: the two early returns print their
diagnostic and stop, the completed run carries the final training state and
the exported graph interface. -/
inductive MainResult where
  | missingData
  | noTrainingData
  | completed (finalState : TrainState) (iface : TensorInterface)

/-- `main` from line 324 on, once `load_and_prepare_data` has produced the
three arrays: abort when no sequences were built, otherwise split, build
the train dataset (fitting both scalers) and the validation dataset
(reusing them), batch with size 64 (training shuffled per epoch,
validation in order), train for 30 epochs at learning rate 0.001 from the
seeded initial parameters, and export. -/
def mainAfterLoad (sub : Substrate) (out : BuilderOutput) : MainResult :=
  if out.sequences.length = 0 then MainResult.noTrainingData
  else
    let split := trainTestSplit sub.splitShuffle out.sequences out.targets
    let xTrain := split.1
    let xVal := split.2.1
    let yTrain := split.2.2.1
    let yVal := split.2.2.2
    let trainDataset := datasetInit xTrain yTrain none none true
    let valDataset :=
      datasetInit xVal yVal (some trainDataset.scalerX) (some trainDataset.scalerY) false
    let trainItems := trainDataset.sequencesScaled.zip trainDataset.targetsScaled
    let valItems := valDataset.sequencesScaled.zip valDataset.targetsScaled
    let trainB := fun e =>
      (chunksOf 64 ((sub.epochShuffle e).map fun i => trainItems.getD i ([], []))).map mkBatch
    let valB := (chunksOf 64 valItems).map mkBatch
    let final := trainModel sub.net trainB valB 30 (initTrainState sub.initParams 0.001)
    MainResult.completed final (exportToOnnx 10)

/-- The whole environment of one run: whether `data/game_dataset.parquet`
exists, the grouped session rows it holds, the NumPy random stream, and the
substrate oracles. -/
structure Env where
  dataFileExists : Bool
  rawSessions : List (List Event)
  rng : Rng
  sub : Substrate

/-- `main`: fail fast when the dataset file is missing, otherwise run
`load_and_prepare_data(data_path, sequence_length=10)` (with the default
`min_session_length=20`) and continue with `mainAfterLoad`. -/
def mainRun (env : Env) : MainResult :=
  if env.dataFileExists = false then MainResult.missingData
  else mainAfterLoad env.sub (builderOutput env.rng 10 20 env.rawSessions)

/-! ## Theorems -/

/-- A trivial random oracle, used to instantiate theorems at concrete inputs. -/
def rng0 : Rng := ⟨fun _ => 0, fun _ => 0⟩

/-- C1: the dummy graph and the trained export share the input/output names,
but they are NOT interface-compatible: the dummy graph declares 6
per-timestep features on a rank-2 `history` (with `config : [1]`), while the
trained export declares 4 per-timestep features on a rank-3 `history` with a
static batch dimension (and `config : [1, 1]`), so neither artifact can be
substituted for the other by a consuming runtime that matches shapes. -/
theorem c1_dummy_and_export_interfaces :
    createDummyModel.inputNames = (exportToOnnx 10).inputNames ∧
    createDummyModel.outputNames = (exportToOnnx 10).outputNames ∧
    createDummyModel.featureCount = some 6 ∧
    (exportToOnnx 10).featureCount = some 4 ∧
    createDummyModel.historyShape ≠ (exportToOnnx 10).historyShape ∧
    createDummyModel.configShape ≠ (exportToOnnx 10).configShape ∧
    ¬ interfaceCompatible createDummyModel (exportToOnnx 10) := by
  refine ⟨rfl, rfl, rfl, rfl, by decide, by decide, ?_⟩
  intro h
  have h6 : (some 6 : Option ℕ) = some 4 := h.2.2.1
  simp at h6

/-- C5: the training dataset construction fits the feature scaler on the
training windows flattened across the window-length dimension and the
target scaler on the training targets; constructing the validation dataset
with those scalers and `fit_scalers=False` stores exactly the same scaler
states (mean and variance unchanged) and merely applies their transforms to
the validation data. -/
theorem c5_scalers_fit_once (xTrain xVal : List (List (List ℝ)))
    (yTrain yVal : List (List ℝ)) :
    (datasetInit xTrain yTrain none none true).scalerX = StandardScaler.fit xTrain.flatten ∧
    (datasetInit xTrain yTrain none none true).scalerY = StandardScaler.fit yTrain ∧
    (datasetInit xVal yVal (some (datasetInit xTrain yTrain none none true).scalerX)
        (some (datasetInit xTrain yTrain none none true).scalerY) false).scalerX =
      (datasetInit xTrain yTrain none none true).scalerX ∧
    (datasetInit xVal yVal (some (datasetInit xTrain yTrain none none true).scalerX)
        (some (datasetInit xTrain yTrain none none true).scalerY) false).scalerY =
      (datasetInit xTrain yTrain none none true).scalerY ∧
    (datasetInit xVal yVal (some (datasetInit xTrain yTrain none none true).scalerX)
        (some (datasetInit xTrain yTrain none none true).scalerY) false).sequencesScaled =
      scaleSequences (datasetInit xTrain yTrain none none true).scalerX xVal ∧
    (datasetInit xVal yVal (some (datasetInit xTrain yTrain none none true).scalerX)
        (some (datasetInit xTrain yTrain none none true).scalerY) false).targetsScaled =
      (datasetInit xTrain yTrain none none true).scalerY.transform yVal :=
  ⟨rfl, rfl, rfl, rfl, rfl, rfl⟩

/-- C3: the pre-noise escape target always has Euclidean norm exactly
`maxSpeed * 100`; at positive agent–pointer distance it is the unit vector
away from the pointer scaled by `maxSpeed * 100`, at zero distance it is the
uniformly random angle `2π·u` on the unit circle with the same magnitude;
the emitted target adds `0.3 * maxSpeed * 100` times a standard normal draw
to each component independently. -/
theorem c3_escape_target (rng : Rng) (k : ℕ) (s : ℝ) (f : List ℝ) (hs : 0 ≤ s) :
    Real.sqrt ((preNoiseTarget rng k s f).1 ^ 2 + (preNoiseTarget rng k s f).2 ^ 2) = s * 100 ∧
    (0 < distanceOf f →
      preNoiseTarget rng k s f =
        ((deltaX f / distanceOf f) * s * 100, (deltaY f / distanceOf f) * s * 100)) ∧
    (¬ 0 < distanceOf f →
      preNoiseTarget rng k s f =
        (Real.cos (2 * Real.pi * rng.unif k) * s * 100,
         Real.sin (2 * Real.pi * rng.unif k) * s * 100)) ∧
    (0 ≤ rng.unif k → rng.unif k < 1 →
      0 ≤ 2 * Real.pi * rng.unif k ∧ 2 * Real.pi * rng.unif k < 2 * Real.pi) ∧
    mkTarget rng k s f =
      ((preNoiseTarget rng k s f).1 + 0.3 * s * 100 * rng.gauss (2 * k),
       (preNoiseTarget rng k s f).2 + 0.3 * s * 100 * rng.gauss (2 * k + 1)) := by
  have hs100 : (0 : ℝ) ≤ s * 100 := by nlinarith
  refine ⟨?_, ?_, ?_, ?_, rfl⟩
  · by_cases hd : 0 < distanceOf f
    · have hd0 : distanceOf f ≠ 0 := ne_of_gt hd
      have hsq : distanceOf f ^ 2 = deltaX f ^ 2 + deltaY f ^ 2 :=
        Real.sq_sqrt (by positivity)
      have key : ((deltaX f / distanceOf f) * s * 100) ^ 2 +
          ((deltaY f / distanceOf f) * s * 100) ^ 2 = (s * 100) ^ 2 := by
        have expand : ((deltaX f / distanceOf f) * s * 100) ^ 2 +
            ((deltaY f / distanceOf f) * s * 100) ^ 2 =
            (deltaX f ^ 2 + deltaY f ^ 2) / distanceOf f ^ 2 * (s * 100) ^ 2 := by
          ring
        rw [expand, ← hsq, div_self (pow_ne_zero 2 hd0), one_mul]
      simp only [preNoiseTarget, if_pos hd]
      rw [key, Real.sqrt_sq hs100]
    · have key : (Real.cos (2 * Real.pi * rng.unif k) * s * 100) ^ 2 +
          (Real.sin (2 * Real.pi * rng.unif k) * s * 100) ^ 2 = (s * 100) ^ 2 := by
        have hsc := Real.sin_sq_add_cos_sq (2 * Real.pi * rng.unif k)
        nlinarith [hsc]
      simp only [preNoiseTarget, if_neg hd]
      rw [key, Real.sqrt_sq hs100]
  · intro hd
    simp only [preNoiseTarget, if_pos hd]
  · intro hd
    simp only [preNoiseTarget, if_neg hd]
  · intro h0 h1
    constructor
    · exact mul_nonneg (le_of_lt Real.two_pi_pos) h0
    · exact mul_lt_of_lt_one_right Real.two_pi_pos h1

/-- Witness for C3 at the concrete state `dot = (3,4)`, `mouse = (0,0)`,
`maxSpeed = 1`. -/
theorem c3_escape_target_witness :
    (0 : ℝ) ≤ 1 ∧
    Real.sqrt ((preNoiseTarget rng0 0 1 [3, 4, 0, 0]).1 ^ 2 +
      (preNoiseTarget rng0 0 1 [3, 4, 0, 0]).2 ^ 2) = 1 * 100 :=
  ⟨by norm_num, (c3_escape_target rng0 0 1 [3, 4, 0, 0] (by norm_num)).1⟩

/-- The stored scale of a feature is never zero. -/
theorem scaleOf_ne_zero (v : ℝ) : scaleOf v ≠ 0 := by
  unfold scaleOf
  split
  · exact one_ne_zero
  · next h => exact h

/-- Transforming one row preserves its length when the scaler has the
matching feature count. -/
theorem transformRow_length : ∀ ms vs xs : List ℝ, ms.length = xs.length →
    vs.length = xs.length → (transformRow ms vs xs).length = xs.length
  | [], _, [], _, _ => by simp [transformRow]
  | m :: ms, v :: vs, x :: xs, hm, hv => by
    simp only [transformRow, List.length_cons]
    exact congrArg Nat.succ (transformRow_length ms vs xs (by simpa using hm) (by simpa using hv))
  | [], _, _ :: _, hm, _ => by simp at hm
  | _ :: _, [], [], hm, _ => by simp at hm
  | _ :: _, [], _ :: _, _, hv => by simp at hv
  | _ :: _, _ :: _, [], hm, _ => by simp at hm

/-- The scaler round trip is the identity on one row of the matching width. -/
theorem invRow_transformRow : ∀ ms vs xs : List ℝ, ms.length = xs.length →
    vs.length = xs.length → invRow ms vs (transformRow ms vs xs) = xs
  | [], _, [], _, _ => by simp [transformRow, invRow]
  | m :: ms, v :: vs, x :: xs, hm, hv => by
    simp only [transformRow, invRow]
    rw [div_mul_cancel₀ _ (scaleOf_ne_zero v), sub_add_cancel,
      invRow_transformRow ms vs xs (by simpa using hm) (by simpa using hv)]
  | [], _, _ :: _, hm, _ => by simp at hm
  | _ :: _, [], [], hm, _ => by simp at hm
  | _ :: _, [], _ :: _, _, hv => by simp at hv
  | _ :: _, _ :: _, [], hm, _ => by simp at hm

/-- The fitted scaler stores one mean and one variance per feature. -/
theorem fit_lengths (rows : List (List ℝ)) :
    (StandardScaler.fit rows).mean.length = (rows.headD []).length ∧
    (StandardScaler.fit rows).var.length = (rows.headD []).length := by
  simp [StandardScaler.fit, StandardScaler.fitDim]

/-- C10: for a scaler fitted on `data`, `inverse_transform (transform x)`
returns `x` exactly (over the reals) for every `x` whose rows have the
fitted feature width, and `transform` preserves the shape of its input. -/
theorem c10_scaler_roundtrip (data x : List (List ℝ))
    (hx : ∀ r ∈ x, r.length = (data.headD []).length) :
    (StandardScaler.fit data).inverseTransform ((StandardScaler.fit data).transform x) = x ∧
    ((StandardScaler.fit data).transform x).length = x.length ∧
    ∀ r ∈ (StandardScaler.fit data).transform x, r.length = (data.headD []).length := by
  obtain ⟨hm, hv⟩ := fit_lengths data
  refine ⟨?_, by simp [StandardScaler.transform], ?_⟩
  · unfold StandardScaler.inverseTransform StandardScaler.transform
    rw [List.map_map]
    have : ∀ r ∈ x,
        (invRow (StandardScaler.fit data).mean (StandardScaler.fit data).var ∘
          transformRow (StandardScaler.fit data).mean (StandardScaler.fit data).var) r = r := by
      intro r hr
      exact invRow_transformRow _ _ _ (hm.trans (hx r hr).symm) (hv.trans (hx r hr).symm)
    rw [List.map_congr_left this]
    simp
  · intro r hr
    obtain ⟨r₀, hr₀, rfl⟩ := List.mem_map.mp hr
    rw [transformRow_length _ _ _ (hm.trans (hx r₀ hr₀).symm) (hv.trans (hx r₀ hr₀).symm)]
    exact hx r₀ hr₀

/-- C7: the model's forward pass reads the input sequence only through the
final time-step's LSTM output (equal final outputs give equal predictions);
in evaluation mode it is exactly the single linear head applied to that
final hidden state concatenated with the scalar config, its 2-D output
split into the two scalar components, independent of the dropout mask; in
training mode dropout zeroes the masked activations. -/
theorem c7_forward_last_hidden {I H : ℕ} (m : DotBehaviorLSTM I H) (training : Bool)
    (mask mask' : Fin H → Bool) (h₁ h₂ : List (Fin I → ℝ)) (c : ℝ) (j : Fin H)
    (hlast : (lstmStates m.lstm h₁).1 = (lstmStates m.lstm h₂).1)
    (hmask : mask j = false) :
    m.forward training mask h₁ c = m.forward training mask h₂ c ∧
    m.forward false mask h₁ c = m.forward false mask' h₁ c ∧
    m.forward false mask h₁ c =
      (dotv (m.fcw 0) (Fin.snoc (lstmStates m.lstm h₁).1 c) + m.fcb 0,
       dotv (m.fcw 1) (Fin.snoc (lstmStates m.lstm h₁).1 c) + m.fcb 1) ∧
    dropoutUnit true 0.2 mask (lstmStates m.lstm h₁).1 j = 0 := by
  refine ⟨?_, ?_, ?_, ?_⟩
  · simp only [DotBehaviorLSTM.forward, hlast]
  · simp only [DotBehaviorLSTM.forward, dropoutUnit, Bool.false_eq_true, if_false]
  · simp only [DotBehaviorLSTM.forward, dropoutUnit, Bool.false_eq_true, if_false]
  · simp only [dropoutUnit, if_true, hmask, Bool.false_eq_true, if_false]

/-- A concrete all-zero model instance at `input_size = hidden_size = 1`. -/
def model0 : DotBehaviorLSTM 1 1 :=
  { lstm :=
      { wi := fun _ _ => 0, wf := fun _ _ => 0, wg := fun _ _ => 0, wo := fun _ _ => 0
        ui := fun _ _ => 0, uf := fun _ _ => 0, ug := fun _ _ => 0, uo := fun _ _ => 0
        bi := fun _ => 0, bf := fun _ => 0, bg := fun _ => 0, bo := fun _ => 0
        ci := fun _ => 0, cf := fun _ => 0, cg := fun _ => 0, co := fun _ => 0 }
    fcw := fun _ _ => 0
    fcb := fun _ => 0 }

/-- Witness for C7 at the all-zero model on the empty history. -/
theorem c7_forward_last_hidden_witness :
    (lstmStates model0.lstm []).1 = (lstmStates model0.lstm []).1 ∧
    (fun _ : Fin 1 => false) 0 = false ∧
    model0.forward true (fun _ => false) [] 0 = model0.forward true (fun _ => false) [] 0 :=
  ⟨rfl, rfl,
    (c7_forward_last_hidden model0 true (fun _ => false) (fun _ => true) [] [] 0 0 rfl rfl).1⟩

/-- C9: `mainRun` is a pure function of the input data and the seed-derived
random streams: two runs that agree on the dataset file, the session rows,
the NumPy stream, and the substrate oracles (seeded split shuffle, loader
shuffles, seeded parameter initialization, network/gradient functions)
produce identical results, in particular identical final parameters. -/
theorem c9_determinism (e₁ e₂ : Env)
    (hfile : e₁.dataFileExists = e₂.dataFileExists)
    (hdata : e₁.rawSessions = e₂.rawSessions)
    (hrng : e₁.rng = e₂.rng)
    (hsub : e₁.sub = e₂.sub) :
    mainRun e₁ = mainRun e₂ := by
  obtain ⟨f₁, d₁, r₁, s₁⟩ := e₁
  obtain ⟨f₂, d₂, r₂, s₂⟩ := e₂
  simp only at hfile hdata hrng hsub
  subst hfile hdata hrng hsub
  rfl

/-- A trivial substrate oracle, used to instantiate theorems. -/
def sub0 : Substrate :=
  { net := { fw := fun _ _ _ => [], gradFn := fun _ _ => [] }
    initParams := []
    splitShuffle := []
    epochShuffle := fun _ => [] }

/-- An environment whose dataset file is missing. -/
def env0 : Env := ⟨false, [], rng0, sub0⟩

/-- An environment with an existing but empty dataset file. -/
def env1 : Env := ⟨true, [], rng0, sub0⟩

/-- Witness for C9 at a concrete environment. -/
theorem c9_determinism_witness : mainRun env0 = mainRun env0 :=
  c9_determinism env0 env0 rfl rfl rfl rfl

/-- C8: a missing dataset file makes `main` return the missing-data
diagnostic before touching any data; an empty sequence set after the
builder's filtering makes `main` return the no-training-data diagnostic
before the train/validation split, before any scaler fitting, and before
the training loop. -/
theorem c8_fail_fast (env : Env) :
    (env.dataFileExists = false → mainRun env = MainResult.missingData) ∧
    (env.dataFileExists = true →
      (builderOutput env.rng 10 20 env.rawSessions).sequences.length = 0 →
      mainRun env = MainResult.noTrainingData) := by
  constructor
  · intro h
    simp [mainRun, h]
  · intro h hempty
    simp [mainRun, h, mainAfterLoad, hempty]

/-- Witness for C8: one run with a missing file, one with an empty dataset. -/
theorem c8_fail_fast_witness :
    mainRun env0 = MainResult.missingData ∧ mainRun env1 = MainResult.noTrainingData :=
  ⟨(c8_fail_fast env0).1 rfl, (c8_fail_fast env1).2 rfl rfl⟩

/-- C4: the training loop conditions the model only on the constant
all-ones config column: two network oracles that agree on all-ones configs
(with the same gradient oracle) produce identical training runs; the
`configs` array produced by the sequence builder is dropped by `main`
(changing it changes nothing downstream); and every entry of the config
column handed to the forward pass is the constant `1`. -/
theorem c4_config_placeholder (net₁ net₂ : NetOracle) (trainB : ℕ → List Batch)
    (valB : List Batch) (epochs : ℕ) (st0 : TrainState) (sub : Substrate)
    (seqs : List (List (List ℝ))) (tgts cfgs cfgs' : List (List ℝ)) (n i : ℕ)
    (hi : i < n) (hgrad : net₁.gradFn = net₂.gradFn)
    (hfw : ∀ p s k, net₁.fw p s (batchConfig k) = net₂.fw p s (batchConfig k)) :
    trainModel net₁ trainB valB epochs st0 = trainModel net₂ trainB valB epochs st0 ∧
    mainAfterLoad sub ⟨seqs, tgts, cfgs⟩ = mainAfterLoad sub ⟨seqs, tgts, cfgs'⟩ ∧
    (batchConfig n).getD i 0 = 1 := by
  have hbatchF : runTrainBatch net₁ = runTrainBatch net₂ := by
    funext lr a b
    simp only [runTrainBatch, hfw, hgrad]
  have hvalF : valBatchLoss net₁ = valBatchLoss net₂ := by
    funext p b
    simp only [valBatchLoss, hfw]
  have hepochF : runEpoch net₁ = runEpoch net₂ := by
    funext tb vb st
    simp only [runEpoch, hbatchF, hvalF]
  have hloopF : ∀ (k i₀ : ℕ) (st : TrainState),
      trainLoop net₁ trainB valB i₀ k st = trainLoop net₂ trainB valB i₀ k st := by
    intro k
    induction k with
    | zero => intro i₀ st; rfl
    | succ k ih =>
      intro i₀ st
      simp only [trainLoop, hepochF]
      exact ih _ _
  refine ⟨hloopF epochs 0 st0, rfl, ?_⟩
  have hlen : i < (List.replicate n (1 : ℝ)).length := by simpa using hi
  rw [batchConfig, List.getD_eq_getElem _ _ hlen, List.getElem_replicate]

/-- Witness for C4 at the trivial substrate network. -/
theorem c4_config_placeholder_witness :
    (0 < 1 ∧ sub0.net.gradFn = sub0.net.gradFn ∧
      ∀ p s k, sub0.net.fw p s (batchConfig k) = sub0.net.fw p s (batchConfig k)) ∧
    (batchConfig 1).getD 0 0 = 1 :=
  ⟨⟨Nat.zero_lt_one, rfl, fun _ _ _ => rfl⟩,
    (c4_config_placeholder sub0.net sub0.net (fun _ => []) [] 0 (initTrainState [] 1)
      sub0 [] [] [] [] 1 0 Nat.zero_lt_one rfl fun _ _ _ => rfl).2.2⟩

/-- The number of samples a kept session emits is its event count minus the
window length. -/
theorem sessionSamples_length (rng : Rng) (L k₀ : ℕ) (es : List Event) :
    (sessionSamples rng L k₀ es).length = es.length - L := by
  simp [sessionSamples, sortByTs, List.length_insertionSort]

/-- A session below the minimum length contributes nothing to the expected
count. -/
theorem expectedCount_cons_lt (L M : ℕ) (es : List Event) (rest : List (List Event))
    (h : es.length < M) : expectedCount L M (es :: rest) = expectedCount L M rest := by
  have hd : decide (M ≤ es.length) = false := decide_eq_false (by omega)
  simp [expectedCount, List.filter_cons, hd]

/-- A kept session contributes `length - L` to the expected count. -/
theorem expectedCount_cons_ge (L M : ℕ) (es : List Event) (rest : List (List Event))
    (h : ¬ es.length < M) :
    expectedCount L M (es :: rest) = (es.length - L) + expectedCount L M rest := by
  have hd : decide (M ≤ es.length) = true := decide_eq_true (by omega)
  simp [expectedCount, List.filter_cons, hd]

/-- The builder emits exactly `length - L` samples for every kept session
and none for a skipped one. -/
theorem loadAndPrepareData_length (rng : Rng) (L M : ℕ) :
    ∀ (k₀ : ℕ) (sessions : List (List Event)),
      (loadAndPrepareData rng L M k₀ sessions).length = expectedCount L M sessions := by
  intro k₀ sessions
  induction sessions generalizing k₀ with
  | nil => rfl
  | cons es rest ih =>
    by_cases h : es.length < M
    · simp only [loadAndPrepareData, if_pos h]
      rw [ih k₀, expectedCount_cons_lt L M es rest h]
    · simp only [loadAndPrepareData, if_neg h, List.length_append, sessionSamples_length]
      rw [ih, expectedCount_cons_ge L M es rest h]

/-- Every emitted sample comes from one kept session: its window is the
contiguous slice `features[i-L : i]` of that session's time-sorted feature
rows, its config is that session's `maxSpeed`, and its target is computed
from the state at index `i = L + j` of the same session. -/
theorem loadAndPrepareData_mem (rng : Rng) (L M : ℕ) :
    ∀ (k₀ : ℕ) (sessions : List (List Event)) (smp : Sample),
      smp ∈ loadAndPrepareData rng L M k₀ sessions →
      ∃ es ∈ sessions, M ≤ es.length ∧ ∃ j < es.length - L, ∃ k : ℕ,
        smp.window = (((sortByTs es).map featOf).drop j).take L ∧
        smp.config = ((sortByTs es).headD default).maxSpeed ∧
        smp.target = mkTarget rng k ((sortByTs es).headD default).maxSpeed
          (((sortByTs es).map featOf).getD (L + j) []) := by
  intro k₀ sessions
  induction sessions generalizing k₀ with
  | nil =>
    intro smp h
    simp [loadAndPrepareData] at h
  | cons es rest ih =>
    intro smp h
    by_cases hlen : es.length < M
    · simp only [loadAndPrepareData, if_pos hlen] at h
      obtain ⟨es', hes', hrest⟩ := ih k₀ smp h
      exact ⟨es', List.mem_cons_of_mem _ hes', hrest⟩
    · simp only [loadAndPrepareData, if_neg hlen, List.mem_append] at h
      rcases h with h | h
      · simp only [sessionSamples, List.mem_map, List.mem_range] at h
        obtain ⟨j, hj, rfl⟩ := h
        have hfl : ((sortByTs es).map featOf).length = es.length := by
          simp [sortByTs, List.length_insertionSort]
        rw [hfl] at hj
        exact ⟨es, List.mem_cons_self _ _, by omega, j, hj, k₀ + j, rfl, rfl, rfl⟩
      · obtain ⟨es', hes', hrest⟩ := ih (k₀ + (es.length - L)) smp h
        exact ⟨es', List.mem_cons_of_mem _ hes', hrest⟩

/-- The model of `sort_values("timestamp")` really sorts: its output is a
timestamp-sorted permutation of the session's events. -/
theorem sortByTs_sorted_perm (es : List Event) :
    List.Sorted tsLE (sortByTs es) ∧ (sortByTs es).Perm es :=
  ⟨List.sorted_insertionSort tsLE es, List.perm_insertionSort tsLE es⟩

/-- C2: the builder emits `max(N - L, 0)` aligned (window, target, config)
triples per session of length `N ≥ M` and zero for `N < M` (the count is
the sum over kept sessions, with no error for short ones); the three
returned arrays are index-aligned projections of one sample list; sessions
are time-sorted before slicing; and every emitted sample's window is a
contiguous slice `features[i-L : i]` taken from a single kept session, with
its target computed from that session's state at index `i` and its config
that session's `maxSpeed`. -/
theorem c2_sequence_builder (rng : Rng) (L M k₀ : ℕ) (sessions : List (List Event))
    (smp : Sample) (hmem : smp ∈ loadAndPrepareData rng L M k₀ sessions) :
    (loadAndPrepareData rng L M k₀ sessions).length = expectedCount L M sessions ∧
    (builderOutput rng L M sessions).sequences =
      (loadAndPrepareData rng L M 0 sessions).map Sample.window ∧
    (builderOutput rng L M sessions).targets =
      (loadAndPrepareData rng L M 0 sessions).map (fun q => [q.target.1, q.target.2]) ∧
    (builderOutput rng L M sessions).configs =
      (loadAndPrepareData rng L M 0 sessions).map (fun q => [q.config]) ∧
    (builderOutput rng L M sessions).sequences.length =
      (builderOutput rng L M sessions).targets.length ∧
    (builderOutput rng L M sessions).targets.length =
      (builderOutput rng L M sessions).configs.length ∧
    (∀ es : List Event, List.Sorted tsLE (sortByTs es) ∧ (sortByTs es).Perm es) ∧
    (∃ es ∈ sessions, M ≤ es.length ∧ ∃ j < es.length - L, ∃ k : ℕ,
      smp.window = (((sortByTs es).map featOf).drop j).take L ∧
      smp.config = ((sortByTs es).headD default).maxSpeed ∧
      smp.target = mkTarget rng k ((sortByTs es).headD default).maxSpeed
        (((sortByTs es).map featOf).getD (L + j) [])) :=
  ⟨loadAndPrepareData_length rng L M k₀ sessions, rfl, rfl, rfl,
    by simp [builderOutput], by simp [builderOutput],
    fun es => sortByTs_sorted_perm es,
    loadAndPrepareData_mem rng L M k₀ sessions smp hmem⟩

/-- The end-to-end scenario of the specification: two sessions of 25 events
each. -/
def sessions25 : List (List Event) := [List.replicate 25 default, List.replicate 25 default]

/-- Witness for C2: with window length 10 and minimum session length 20,
the two 25-event sessions yield exactly 15 + 15 = 30 samples, and the first
emitted sample satisfies the per-sample provenance property. -/
theorem c2_sequence_builder_witness :
    0 < (loadAndPrepareData rng0 10 20 0 sessions25).length ∧
    (loadAndPrepareData rng0 10 20 0 sessions25).length = expectedCount 10 20 sessions25 ∧
    expectedCount 10 20 sessions25 = 30 := by
  have h30 : expectedCount 10 20 sessions25 = 30 := by
    simp [expectedCount, sessions25]
  have hlen := loadAndPrepareData_length rng0 10 20 0 sessions25
  have hpos : 0 < (loadAndPrepareData rng0 10 20 0 sessions25).length := by
    rw [hlen, h30]
    norm_num
  refine ⟨hpos, ?_, h30⟩
  exact (c2_sequence_builder rng0 10 20 0 sessions25
    ((loadAndPrepareData rng0 10 20 0 sessions25).get ⟨0, hpos⟩) (List.get_mem _ _ hpos)).1

/-- One training batch advances the optimizer's step counter by exactly 1. -/
theorem runTrainBatch_t (net : NetOracle) (lr : ℝ) (a : EpochAcc) (b : Batch) :
    (runTrainBatch net lr a b).adam.t = a.adam.t + 1 := by
  simp [runTrainBatch, adamStep]

/-- Folding the training batches advances the step counter once per batch. -/
theorem foldl_runTrainBatch_t (net : NetOracle) (lr : ℝ) :
    ∀ (tb : List Batch) (a : EpochAcc),
      (tb.foldl (runTrainBatch net lr) a).adam.t = a.adam.t + tb.length := by
  intro tb
  induction tb with
  | nil => intro a; simp
  | cons b tb ih =>
    intro a
    simp only [List.foldl_cons, List.length_cons, ih, runTrainBatch_t]
    omega

/-- One epoch performs exactly one optimizer step per training batch. -/
theorem runEpoch_t (net : NetOracle) (tb vb : List Batch) (st : TrainState) :
    (runEpoch net tb vb st).adam.t = st.adam.t + tb.length := by
  simp [runEpoch, foldl_runTrainBatch_t]

/-- Across the epoch loop the step counter grows by the total number of
batches the loader hands out. -/
theorem trainLoop_t (net : NetOracle) (trainB : ℕ → List Batch) (valB : List Batch) :
    ∀ (k i : ℕ) (st : TrainState),
      (trainLoop net trainB valB i k st).adam.t =
        st.adam.t + ((List.range k).map fun e => (trainB (i + e)).length).sum := by
  intro k
  induction k with
  | zero => intro i st; simp [trainLoop]
  | succ k ih =>
    intro i st
    simp only [trainLoop]
    rw [ih (i + 1), runEpoch_t, List.range_succ_eq_map, List.map_cons, List.map_map,
      List.sum_cons]
    have harith : ((fun e => (trainB (i + e)).length) ∘ Nat.succ) =
        fun e => (trainB (i + 1 + e)).length := by
      funext e
      simp only [Function.comp_apply]
      congr 2
      omega
    simp only [harith, Nat.add_zero]
    omega

/-- `trainModel` performs one optimizer step per batch per epoch. -/
theorem trainModel_t (net : NetOracle) (trainB : ℕ → List Batch) (valB : List Batch)
    (epochs : ℕ) (st0 : TrainState) :
    (trainModel net trainB valB epochs st0).adam.t =
      st0.adam.t + ((List.range epochs).map fun e => (trainB e).length).sum := by
  have h := trainLoop_t net trainB valB epochs 0 st0
  simpa using h

/-- The squared entries of a gradient sum to a nonnegative number. -/
theorem sumsq_nonneg (g : List ℝ) : 0 ≤ (g.map fun x => x ^ 2).sum :=
  List.sum_nonneg fun x hx => by
    obtain ⟨y, _, rfl⟩ := List.mem_map.mp hx
    positivity

/-- The gradient norm is nonnegative. -/
theorem totalNorm_nonneg (g : List ℝ) : 0 ≤ totalNorm g := Real.sqrt_nonneg _

/-- Scaling the gradient by a nonnegative factor scales its norm. -/
theorem totalNorm_smul (g : List ℝ) (c : ℝ) (hc : 0 ≤ c) :
    totalNorm (g.map fun x => x * c) = totalNorm g * c := by
  unfold totalNorm
  rw [List.map_map]
  have hsq : ((fun x => x ^ 2) ∘ fun x => x * c) = fun x => x ^ 2 * c ^ 2 := by
    funext x
    simp only [Function.comp]
    ring
  rw [hsq, List.sum_map_mul_right, Real.sqrt_mul (sumsq_nonneg g), Real.sqrt_sq hc]

/-- After `clip_grad_norm_(_, max_norm=1.0)` the global gradient norm is at
most 1 (strictly: at most `max_norm` thanks to the `1e-6` fudge term). -/
theorem clipGrad_norm_le (g : List ℝ) : totalNorm (clipGrad g) ≤ 1 := by
  unfold clipGrad
  have htn0 : 0 ≤ totalNorm g := totalNorm_nonneg g
  have heps : (0 : ℝ) < 1e-6 := by norm_num
  have hpos : 0 < totalNorm g + 1e-6 := by linarith
  by_cases h : 1 / (totalNorm g + 1e-6) < 1
  · rw [if_pos h]
    have hc : 0 ≤ 1 / (totalNorm g + 1e-6) := le_of_lt (by positivity)
    rw [totalNorm_smul g _ hc, mul_one_div]
    exact div_le_one_of_le₀ (by linarith) (le_of_lt hpos)
  · rw [if_neg h]
    push_neg at h
    rw [le_div_iff₀ hpos] at h
    linarith

/-- The validation pass of an epoch has no effect on the parameters: the
post-epoch parameters do not depend on the validation batches. -/
theorem runEpoch_params_indep (net : NetOracle) (tb vb vb' : List Batch) (st : TrainState) :
    (runEpoch net tb vb st).params = (runEpoch net tb vb' st).params := rfl

/-- One epoch preserves the invariant that the scheduler state is the fold
of the recorded validation losses. -/
theorem runEpoch_sched_inv (net : NetOracle) (tb vb : List Batch) (st : TrainState)
    (base : SchedulerState) (h : st.sched = st.valLosses.foldl schedStep base) :
    (runEpoch net tb vb st).sched = (runEpoch net tb vb st).valLosses.foldl schedStep base := by
  simp only [runEpoch]
  rw [List.foldl_append, ← h]
  simp

/-- The epoch loop keeps the scheduler a fold of the validation-loss series. -/
theorem trainLoop_sched (net : NetOracle) (trainB : ℕ → List Batch) (valB : List Batch)
    (base : SchedulerState) :
    ∀ (k i : ℕ) (st : TrainState), st.sched = st.valLosses.foldl schedStep base →
      (trainLoop net trainB valB i k st).sched =
        (trainLoop net trainB valB i k st).valLosses.foldl schedStep base := by
  intro k
  induction k with
  | zero => intro i st h; exact h
  | succ k ih =>
    intro i st h
    simp only [trainLoop]
    exact ih _ _ (runEpoch_sched_inv net (trainB i) valB st base h)

/-- An improving validation loss becomes the scheduler's new best, resets
the bad-epoch count, and keeps the learning rate. -/
theorem schedStep_improve (st : SchedulerState) (m b : ℝ) (hb : st.best = some b)
    (h : m < b * (1 - 1e-4)) :
    (schedStep st m).numBad = 0 ∧ (schedStep st m).lr = st.lr ∧
    (schedStep st m).best = some m := by
  simp only [schedStep, hb]
  rw [if_pos h]
  exact ⟨rfl, rfl, rfl⟩

/-- A non-improving epoch within the patience budget keeps the learning
rate and counts the epoch. -/
theorem schedStep_plateau (st : SchedulerState) (m b : ℝ) (hb : st.best = some b)
    (hni : ¬ m < b * (1 - 1e-4)) (hn : st.numBad + 1 ≤ 5) :
    (schedStep st m).lr = st.lr ∧ (schedStep st m).numBad = st.numBad + 1 := by
  simp only [schedStep, hb]
  rw [if_neg hni, if_neg (by omega : ¬ st.numBad + 1 > 5)]
  exact ⟨rfl, rfl⟩

/-- A non-improving epoch beyond `patience = 5` halves the learning rate. -/
theorem schedStep_halve (st : SchedulerState) (m b : ℝ) (hb : st.best = some b)
    (hni : ¬ m < b * (1 - 1e-4)) (h5 : st.numBad = 5) :
    (schedStep st m).lr = st.lr * 0.5 ∧ (schedStep st m).numBad = 0 := by
  simp only [schedStep, hb]
  rw [if_neg hni, if_pos (by omega : st.numBad + 1 > 5)]
  exact ⟨rfl, rfl⟩

/-- C6: each epoch folds over every batch the loader hands out, applying
exactly one optimizer step per batch — the step built from the all-ones
config forward pass, the joint two-component MSE loss, and the
norm-clipped gradient fed to one Adam update with weight decay `1e-5`; the
clipped global gradient norm never exceeds 1; the validation pass leaves
the parameters untouched; the scheduler's state (hence the learning rate)
is purely a fold of the recorded validation-loss series; and its plateau
mechanics keep the rate while the bad-epoch count is within the patience
of 5 and multiply it by 0.5 once the count exceeds it. -/
theorem c6_training_loop (net : NetOracle) (trainB : ℕ → List Batch)
    (valB valB' : List Batch) (epochs : ℕ) (st0 st : TrainState) (tb : List Batch)
    (lr : ℝ) (a : EpochAcc) (b : Batch) (g : List ℝ)
    (s₁ s₂ s₃ : SchedulerState) (m₁ m₂ m₃ b₁ b₂ b₃ : ℝ)
    (hv0 : st0.valLosses = [])
    (h₁b : s₁.best = some b₁) (h₁ : m₁ < b₁ * (1 - 1e-4))
    (h₂b : s₂.best = some b₂) (h₂ : ¬ m₂ < b₂ * (1 - 1e-4)) (h₂n : s₂.numBad + 1 ≤ 5)
    (h₃b : s₃.best = some b₃) (h₃ : ¬ m₃ < b₃ * (1 - 1e-4)) (h₃n : s₃.numBad = 5) :
    (trainModel net trainB valB epochs st0).adam.t =
      st0.adam.t + ((List.range epochs).map fun e => (trainB e).length).sum ∧
    (runTrainBatch net lr a b).acc =
      a.acc + mseLoss (net.fw a.params b.seqs (batchConfig b.seqs.length)) b.tgts ∧
    (runTrainBatch net lr a b).params =
      (adamStep lr 1e-5 a.adam a.params (clipGrad (net.gradFn a.params b))).2 ∧
    totalNorm (clipGrad g) ≤ 1 ∧
    (runEpoch net tb valB st).params = (runEpoch net tb valB' st).params ∧
    (trainModel net trainB valB epochs st0).sched =
      (trainModel net trainB valB epochs st0).valLosses.foldl schedStep st0.sched ∧
    ((schedStep s₁ m₁).numBad = 0 ∧ (schedStep s₁ m₁).lr = s₁.lr ∧
      (schedStep s₁ m₁).best = some m₁) ∧
    ((schedStep s₂ m₂).lr = s₂.lr ∧ (schedStep s₂ m₂).numBad = s₂.numBad + 1) ∧
    ((schedStep s₃ m₃).lr = s₃.lr * 0.5 ∧ (schedStep s₃ m₃).numBad = 0) := by
  refine ⟨trainModel_t net trainB valB epochs st0, rfl, rfl, clipGrad_norm_le g,
    runEpoch_params_indep net tb valB valB' st, ?_,
    schedStep_improve s₁ m₁ b₁ h₁b h₁,
    schedStep_plateau s₂ m₂ b₂ h₂b h₂ h₂n,
    schedStep_halve s₃ m₃ b₃ h₃b h₃ h₃n⟩
  simp only [trainModel]
  exact trainLoop_sched net trainB valB st0.sched epochs 0 st0 (by rw [hv0]; rfl)

/-- Witness for C6 at concrete scheduler states and the empty gradient. -/
theorem c6_training_loop_witness :
    ((initTrainState [] 1).valLosses = [] ∧
      (⟨some 1, 0, 1⟩ : SchedulerState).best = some 1 ∧ (0 : ℝ) < 1 * (1 - 1e-4) ∧
      ¬ (1 : ℝ) < 1 * (1 - 1e-4) ∧ (⟨some 1, 0, 1⟩ : SchedulerState).numBad + 1 ≤ 5 ∧
      (⟨some 1, 5, 1⟩ : SchedulerState).numBad = 5) ∧
    totalNorm (clipGrad []) ≤ 1 ∧
    (schedStep ⟨some 1, 5, 1⟩ 1).lr = (⟨some 1, 5, 1⟩ : SchedulerState).lr * 0.5 := by
  have h1 : (0 : ℝ) < 1 * (1 - 1e-4) := by norm_num
  have h2 : ¬ (1 : ℝ) < 1 * (1 - 1e-4) := by norm_num
  have main := c6_training_loop sub0.net (fun _ => []) [] [] 0 (initTrainState [] 1)
    (initTrainState [] 1) [] 1 ⟨[], ⟨0, [], []⟩, 0⟩ ⟨[], []⟩ []
    ⟨some 1, 0, 1⟩ ⟨some 1, 0, 1⟩ ⟨some 1, 5, 1⟩ 0 1 1 1 1 1
    rfl rfl h1 rfl h2 (by norm_num) rfl h2 rfl
  exact ⟨⟨rfl, rfl, h1, h2, by norm_num, rfl⟩, main.2.2.2.1,
    main.2.2.2.2.2.2.2.2.1⟩

/-- Witness for C10 on the concrete data `[[1],[3]]` and input `[[5]]`. -/
theorem c10_scaler_roundtrip_witness :
    (∀ r ∈ [[(5 : ℝ)]], r.length = (([[(1 : ℝ)], [3]]).headD []).length) ∧
    (StandardScaler.fit [[(1 : ℝ)], [3]]).inverseTransform
      ((StandardScaler.fit [[(1 : ℝ)], [3]]).transform [[(5 : ℝ)]]) = [[(5 : ℝ)]] := by
  have hx : ∀ r ∈ [[(5 : ℝ)]], r.length = (([[(1 : ℝ)], [3]]).headD []).length := by
    intro r hr
    simp only [List.mem_singleton] at hr
    subst hr
    rfl
  exact ⟨hx, (c10_scaler_roundtrip [[(1 : ℝ)], [3]] [[(5 : ℝ)]] hx).1⟩

end




